import Mathlib

/-!
A shallow embedding of the PlantPulse server's time-series core
(`server/index.js`): the reading store (`storeReading`, `getHistory`),
the history endpoint with its extrema-preserving downsampling block, the
five-second sensor cache, and the settings merge.

Modelling conventions, fixed once for the whole file:
* Timestamps are natural numbers (epoch milliseconds for the local store,
  epoch seconds for upstream history entries, exactly as the source holds
  them).  `new Date(x) >= cutoff` comparisons become integer comparisons.
* Moisture values are integers.  The source holds JS numbers; every
  operation the core performs on them (ordering, and subtraction compared
  against the threshold 2) is exact on integers.
* `Array.prototype.sort` with the comparator `(a, b) => a.time - b.time`
  is a stable comparison sort; it is modelled by stable insertion sort on
  the same key.
* Locale-formatted label strings are dropped: only the numeric
  `(timestamp, moisture)` pairs are kept, matching the spec's statement
  that labels are purely presentational.
* The JS minute key built from local calendar fields
  `year-month-day-hour-minute` partitions instants into the same cells as
  `time / 60000` for any fixed whole-minute UTC offset; the dedup key is
  modelled as that quotient.
-/

/-- One stored moisture reading: timestamp plus moisture value.
Mirrors the `{ moisture, timestamp }` records of `storeReading` and the
`{ time, value }` records of the history endpoint. -/
structure Reading where
  time : Nat
  value : Int
deriving DecidableEq

/-- Stable sort ascending by timestamp; models the JS stable
`sort((a, b) => a.time - b.time)` calls (history endpoint line 552,
`getHistory` line 151). -/
def sortByTime (l : List Reading) : List Reading :=
  List.insertionSort (fun a b => a.time ≤ b.time) l

/-- The function `storeReading` (lines 62-80) acting on one sensor's
series `history[sensorId]`: push the new reading, then keep only the
most recent 50000 entries via `slice(-50000)`. -/
def storeReading (series : List Reading) (r : Reading) : List Reading :=
  if 50000 < (series ++ [r]).length then
    (series ++ [r]).drop ((series ++ [r]).length - 50000)
  else series ++ [r]

/-- Cutoff instant of `getHistory`'s `switch (period)` (lines 95-120):
`now` minus the period's lookback in milliseconds; note the `1h` case
deliberately uses a full 24-hour lookback. -/
def cutoffFor (now : Nat) (period : String) : Int :=
  if period = "1h" then (now : Int) - 86400000
  else if period = "24h" then (now : Int) - 86400000
  else if period = "7d" then (now : Int) - 604800000
  else if period = "30d" then (now : Int) - 2592000000
  else if period = "1y" then (now : Int) - 31536000000
  else (now : Int) - 86400000

/-- The skipFactor table of `getHistory` (lines 130-135). -/
def skipFor (period : String) : Nat :=
  if period = "1h" then 1
  else if period = "24h" then 5
  else if period = "7d" then 60
  else if period = "30d" then 360
  else if period = "1y" then 1440
  else 1

/-- Models `filtered.filter((_, i) => i % skipFactor === 0)` (line 137):
keep the elements whose index is divisible by `k`. -/
def everyNth (k : Nat) (l : List Reading) : List Reading :=
  (l.enum.filter (fun p => p.1 % k == 0)).map Prod.snd

/-- The calendar-minute dedup key of `getHistory` (line 145), modelled as
the reading's minute index. -/
def minuteKey (r : Reading) : Nat :=
  r.time / 60000

/-- The `seen` map loop of `getHistory` (lines 141-149): keep a reading
only if its minute key has not been seen yet (first-seen wins),
threading the set of seen keys. -/
def dedupMinAux (seen : List Nat) : List Reading → List Reading
  | [] => []
  | r :: rs =>
    if minuteKey r ∈ seen then dedupMinAux seen rs
    else r :: dedupMinAux (minuteKey r :: seen) rs

/-- Deduplicate to at most one reading per calendar minute, keeping the
first reading seen for each minute (lines 141-150). -/
def dedupByMinute (l : List Reading) : List Reading :=
  dedupMinAux [] l

/-- The function `getHistory(sensorId, period)` (lines 83-159) for one
sensor's stored series, with the current instant passed explicitly:
filter by the period's cutoff, subsample every skipFactor-th entry, and
for `1h` additionally deduplicate per calendar minute and sort
ascending. -/
def getHistory (now : Nat) (series : List Reading) (period : String) : List Reading :=
  if series.isEmpty then []
  else if period = "1h" then
    sortByTime (dedupByMinute (everyNth (skipFor period)
      (series.filter (fun r => decide (cutoffFor now period ≤ (r.time : Int))))))
  else
    everyNth (skipFor period)
      (series.filter (fun r => decide (cutoffFor now period ≤ (r.time : Int))))

/-- The `maxPoints` budget of the downsampling block (line 518). -/
def maxPointsFor (period : String) : Nat :=
  if period = "1h" then 100
  else if period = "24h" then 300
  else if period = "7d" then 400
  else if period = "30d" then 300
  else 200

/-- Fuel-indexed splitting of a list into contiguous chunks of `k`
elements (the last chunk may be shorter); the fuel only serves
structural recursion and is always instantiated with the list length. -/
def chunkFuel (k : Nat) : Nat → List Reading → List (List Reading)
  | 0, _ => []
  | _ + 1, [] => []
  | fuel + 1, x :: xs => (x :: xs).take k :: chunkFuel k fuel ((x :: xs).drop k)

/-- The bucket partition of the downsampling loop (lines 529-530):
`readings.slice(i, min(i + bucketSize, length))` for
`i = 0, bucketSize, 2*bucketSize, ...`. -/
def chunk (k : Nat) (l : List Reading) : List (List Reading) :=
  chunkFuel k l.length l

/-- One iteration of the min/max scan of a bucket (lines 536-539):
`if (point.value < minPoint.value) minPoint = point;`
`if (point.value > maxPoint.value) maxPoint = point;`. -/
def mmStep (mm : Reading × Reading) (p : Reading) : Reading × Reading :=
  (if p.value < mm.1.value then p else mm.1,
   if mm.2.value < p.value then p else mm.2)

/-- Point emission for one bucket (lines 533-548): scan for the first
minimum-value and first maximum-value reading starting from `bucket[0]`,
emit the earlier-timestamped of the two, and the other one as well when
`maxPoint.value - minPoint.value >= 2`. -/
def bucketEmit : List Reading → List Reading
  | [] => []
  | b0 :: rest =>
    let mm := (b0 :: rest).foldl mmStep (b0, b0)
    if mm.1.time < mm.2.time then
      mm.1 :: (if 2 ≤ mm.2.value - mm.1.value then [mm.2] else [])
    else
      mm.2 :: (if 2 ≤ mm.2.value - mm.1.value then [mm.1] else [])

/-- The downsampling engine (lines 515-553): inputs at or under the
period budget pass through unchanged; longer inputs are split into
buckets of `bucketSize = ceil(length / maxPoints)` readings, each bucket
emits its extrema via `bucketEmit`, and the emitted points are re-sorted
by time. -/
def downsample (period : String) (readings : List Reading) : List Reading :=
  if readings.length ≤ maxPointsFor period then readings
  else
    sortByTime (List.flatten (List.map bucketEmit
      (chunk ((readings.length + maxPointsFor period - 1) / maxPointsFor period) readings)))

/-- The `sensorId.match(/^(account\d+)_soil_ch(\d+)$/)` parse (line 429):
returns the account id (`account` followed by one or more digits) and the
channel digits when the whole string matches, and `none` otherwise. -/
def parseSensorId (s : String) : Option (String × String) :=
  let cs := s.toList
  if cs.take 7 = ("account".toList) then
    let rest := cs.drop 7
    let d1 := rest.takeWhile Char.isDigit
    let rest1 := rest.dropWhile Char.isDigit
    if d1 ≠ [] ∧ rest1.take 8 = ("_soil_ch".toList) then
      let rest2 := rest1.drop 8
      let d2 := rest2.takeWhile Char.isDigit
      let rest3 := rest2.dropWhile Char.isDigit
      if d2 ≠ [] ∧ rest3 = [] then
        some (String.mk (("account".toList) ++ d1), String.mk d2)
      else none
    else none
  else none

/-- Outcome of the upstream historical call as the endpoint observes it:
an error result (`result.error` set, covering both non-zero API codes and
transport failures), a response lacking
`channelData?.soilmoisture?.list`, a thrown exception caught by the
endpoint's `catch`, or a successful list of `(epoch-second, moisture)`
entries. -/
inductive Upstream where
  | err (msg : String)
  | noChannel
  | exn (msg : String)
  | ok (entries : List (Nat × Int))

/-- The JSON body of `/api/sensors/:sensorId/history` responses, reduced
to its normative fields: the points, the optional `source` tag, and the
optional `error` message. -/
structure HistoryResponse where
  data : List Reading
  source : Option String
  error : Option String
deriving DecidableEq

/-- Conversion of the upstream list object to sorted typed readings
(lines 507-513): map entries to `{ time, value }` and sort ascending. -/
def upstreamReadings (entries : List (Nat × Int)) : List Reading :=
  sortByTime (entries.map (fun e => { time := e.1, value := e.2 }))

/-- The history endpoint `/api/sensors/:sensorId/history`
(lines 424-573), with the ambient inputs passed explicitly: the
configured account ids, the current instant, the sensor's locally stored
series, and the observed upstream outcome.  Invalid sensor ids and
unknown accounts answer with empty data and an error message; period
`1h` always answers from local data; otherwise upstream errors, missing
channel payloads and caught exceptions all fall back to local data
tagged `source: local`, and successes are downsampled and tagged
`source: ecowitt`. -/
def historyEndpoint (accounts : List String) (now : Nat) (stored : List Reading)
    (sensorId period : String) (u : Upstream) : HistoryResponse :=
  match parseSensorId sensorId with
  | none => { data := [], source := none, error := some "Invalid sensor ID format" }
  | some pr =>
    if pr.1 ∈ accounts then
      if period = "1h" then
        { data := getHistory now stored "1h", source := some "local", error := none }
      else
        match u with
        | .err _ => { data := getHistory now stored period, source := some "local", error := none }
        | .noChannel => { data := getHistory now stored period, source := some "local", error := none }
        | .exn m => { data := getHistory now stored period, source := some "local", error := some m }
        | .ok entries =>
          { data := downsample period (upstreamReadings entries),
            source := some "ecowitt", error := none }
    else { data := [], source := none, error := some "Account not found" }

/-- The module-level sensor cache (lines 282-284): the cached response
object, if any, and the instant it was stored. -/
structure PollState (α : Type) where
  snap : Option α
  time : Nat
deriving DecidableEq

/-- One `/api/sensors` request on the configured-accounts path
(lines 299-346): if a cached snapshot exists and is younger than 5000 ms
it is returned as-is with no upstream call; otherwise the freshly
aggregated response `fresh` is served, cached, and the upstream call is
recorded.  Returns the response, the new cache state, and whether an
upstream network call was made. -/
def fetchCurrentStep {α : Type} (st : PollState α) (now : Nat) (fresh : α) :
    α × PollState α × Bool :=
  match st.snap with
  | some c =>
    if now - st.time < 5000 then (c, st, false)
    else (fresh, { snap := some fresh, time := now }, true)
  | none => (fresh, { snap := some fresh, time := now }, true)

/-- The persisted settings record (`plant_settings.json`). -/
structure Settings where
  names : List (String × String)
  colors : List (String × String)
  order : List String
  hidden : List String
  thresholds : List (String × (Int × Int))
deriving DecidableEq

/-- The request body of `POST /api/settings`: each field is present
(`some`) or absent/`undefined` (`none`). -/
structure SettingsPatch where
  names : Option (List (String × String))
  colors : Option (List (String × String))
  order : Option (List String)
  hidden : Option (List String)
  thresholds : Option (List (String × (Int × Int)))
deriving DecidableEq

/-- The merge of `POST /api/settings` (lines 597-603): each field of the
body replaces the current value exactly when it is not `undefined`. -/
def mergeSettings (current : Settings) (patch : SettingsPatch) : Settings :=
  { names := match patch.names with | some v => v | none => current.names,
    colors := match patch.colors with | some v => v | none => current.colors,
    order := match patch.order with | some v => v | none => current.order,
    hidden := match patch.hidden with | some v => v | none => current.hidden,
    thresholds := match patch.thresholds with | some v => v | none => current.thresholds }

/-- A list of 101 ascending readings alternating between moisture 0 and
10: with budget 100 every two-element bucket keeps both extrema. -/
def exAlternating : List Reading :=
  (List.range 101).map (fun i => { time := i, value := if i % 2 = 0 then 0 else 10 })

/-- A list of 102 ascending readings: a flat first pair (values 0, 0)
followed by alternating 0/10 pairs. -/
def exFlatHead : List Reading :=
  (List.range 102).map
    (fun i => { time := i, value := if i = 1 then 0 else if i % 2 = 0 then 0 else 10 })

/-- A stored series whose timestamps are out of insertion order and all
at or after any 24-hour cutoff from instant 1000000. -/
def exUnordered : List Reading :=
  [{ time := 10, value := 1 }, { time := 5, value := 2 }, { time := 7, value := 3 },
   { time := 8, value := 4 }, { time := 9, value := 5 }, { time := 6, value := 6 }]

/-- A near-flat two-reading bucket (values 50 and 51). -/
def exFlatBucket : List Reading :=
  [{ time := 0, value := 50 }, { time := 1, value := 51 }]

/-- A two-reading sequence, well under every period budget. -/
def exUnderBudget : List Reading :=
  [{ time := 0, value := 50 }, { time := 60000, value := 51 }]

/-- A sample persisted settings record. -/
def exSettings : Settings :=
  { names := [("account1_soil_ch1", "Monstera")],
    colors := [("account1_soil_ch1", "green")],
    order := ["account1_soil_ch1"],
    hidden := [],
    thresholds := [("account1_soil_ch1", (40, 70))] }

/-- A per-field update body that only sets the hidden list. -/
def exHiddenPatch : SettingsPatch :=
  { names := none, colors := none, order := none,
    hidden := some ["account2_soil_ch2"], thresholds := none }

instance : IsTotal Reading (fun a b => a.time ≤ b.time) :=
  ⟨fun a b => Nat.le_total a.time b.time⟩

instance : IsTrans Reading (fun a b => a.time ≤ b.time) :=
  ⟨fun _ _ _ hab hbc => Nat.le_trans hab hbc⟩

theorem sortByTime_perm (l : List Reading) : (sortByTime l).Perm l :=
  List.perm_insertionSort _ l

theorem sortByTime_length (l : List Reading) : (sortByTime l).length = l.length :=
  (sortByTime_perm l).length_eq

theorem sortByTime_sorted (l : List Reading) :
    (sortByTime l).Pairwise (fun a b => a.time ≤ b.time) :=
  List.sorted_insertionSort _ l

theorem mem_sortByTime {r : Reading} {l : List Reading} : r ∈ sortByTime l ↔ r ∈ l :=
  (sortByTime_perm l).mem_iff

theorem maxPointsFor_pos (period : String) : 0 < maxPointsFor period := by
  unfold maxPointsFor
  split_ifs <;> norm_num

theorem storeReading_eq_lastN (acc : List Reading) (r : Reading) :
    storeReading acc r = (acc ++ [r]).drop ((acc ++ [r]).length - 50000) := by
  unfold storeReading
  by_cases h : 50000 < (acc ++ [r]).length
  · rw [if_pos h]
  · rw [if_neg h]
    have h0 : (acc ++ [r]).length - 50000 = 0 := by omega
    rw [h0, List.drop_zero]

theorem lastN_append_absorb (xs ys : List Reading) :
    (xs.drop (xs.length - 50000) ++ ys).drop ((xs.drop (xs.length - 50000) ++ ys).length - 50000)
      = (xs ++ ys).drop ((xs ++ ys).length - 50000) := by
  rw [List.drop_append_eq_append_drop, List.drop_append_eq_append_drop, List.drop_drop]
  have e1 : xs.length - 50000 + ((xs.drop (xs.length - 50000) ++ ys).length - 50000)
      = (xs ++ ys).length - 50000 := by
    simp only [List.length_append, List.length_drop]
    omega
  have e2 : (xs.drop (xs.length - 50000) ++ ys).length - 50000 - (xs.drop (xs.length - 50000)).length
      = (xs ++ ys).length - 50000 - xs.length := by
    simp only [List.length_append, List.length_drop]
    omega
  rw [e1, e2]

theorem foldl_storeReading_acc (l : List Reading) : ∀ (acc : List Reading),
    acc.length ≤ 50000 →
    List.foldl storeReading acc l = (acc ++ l).drop ((acc ++ l).length - 50000) := by
  induction l with
  | nil =>
    intro acc hacc
    have h0 : (acc ++ []).length - 50000 = 0 := by
      rw [List.append_nil]
      omega
    rw [List.foldl_nil, h0, List.drop_zero, List.append_nil]
  | cons r rs ih =>
    intro acc hacc
    rw [List.foldl_cons]
    have hlen2 : (storeReading acc r).length ≤ 50000 := by
      rw [storeReading_eq_lastN, List.length_drop, List.length_append]
      simp only [List.length_singleton]
      omega
    rw [ih (storeReading acc r) hlen2]
    rw [storeReading_eq_lastN]
    rw [lastN_append_absorb (acc ++ [r]) rs]
    rw [List.append_assoc, List.singleton_append]

theorem storeReading_foldl (l : List Reading) :
    List.foldl storeReading [] l = l.drop (l.length - 50000) := by
  have h := foldl_storeReading_acc l [] (by simp)
  simpa using h

theorem everyNth_sublist (k : Nat) (l : List Reading) : (everyNth k l).Sublist l := by
  have h1 : (l.enum.filter (fun p => p.1 % k == 0)).Sublist l.enum :=
    List.filter_sublist _
  have h2 := h1.map Prod.snd
  rw [List.enum_map_snd] at h2
  exact h2

theorem everyNth_one (l : List Reading) : everyNth 1 l = l := by
  unfold everyNth
  rw [List.filter_eq_self.2 (fun a _ => by simp [Nat.mod_one]), List.enum_map_snd]

theorem dedupMinAux_sublist (l : List Reading) : ∀ (seen : List Nat),
    (dedupMinAux seen l).Sublist l := by
  induction l with
  | nil => intro seen; simp [dedupMinAux]
  | cons r rs ih =>
    intro seen
    unfold dedupMinAux
    by_cases h : minuteKey r ∈ seen
    · rw [if_pos h]; exact (ih seen).cons r
    · rw [if_neg h]; exact (ih _).cons₂ r

theorem dedupByMinute_sublist (l : List Reading) : (dedupByMinute l).Sublist l :=
  dedupMinAux_sublist l []

theorem dedupMinAux_notSeen (l : List Reading) : ∀ (seen : List Nat) (r : Reading),
    r ∈ dedupMinAux seen l → minuteKey r ∉ seen := by
  induction l with
  | nil => intro seen r h; simp [dedupMinAux] at h
  | cons x xs ih =>
    intro seen r h
    unfold dedupMinAux at h
    by_cases hx : minuteKey x ∈ seen
    · rw [if_pos hx] at h
      exact ih seen r h
    · rw [if_neg hx] at h
      rcases List.mem_cons.1 h with rfl | h2
      · exact hx
      · have h3 := ih _ r h2
        intro hc
        exact h3 (List.mem_cons_of_mem _ hc)

theorem dedupMinAux_keys_pairwise (l : List Reading) : ∀ (seen : List Nat),
    (dedupMinAux seen l).Pairwise (fun a b => minuteKey a ≠ minuteKey b) := by
  induction l with
  | nil => intro seen; simp [dedupMinAux]
  | cons x xs ih =>
    intro seen
    unfold dedupMinAux
    by_cases hx : minuteKey x ∈ seen
    · rw [if_pos hx]; exact ih seen
    · rw [if_neg hx]
      refine List.Pairwise.cons ?_ (ih _)
      intro b hb he
      exact (dedupMinAux_notSeen xs _ b hb) (by rw [← he]; exact List.mem_cons_self _ _)

theorem dedupMinAux_find (l : List Reading) : ∀ (seen : List Nat) (r : Reading),
    r ∈ dedupMinAux seen l →
    l.find? (fun x => minuteKey x == minuteKey r) = some r := by
  induction l with
  | nil => intro seen r h; simp [dedupMinAux] at h
  | cons x xs ih =>
    intro seen r h
    unfold dedupMinAux at h
    by_cases hx : minuteKey x ∈ seen
    · rw [if_pos hx] at h
      have hne : minuteKey x ≠ minuteKey r := by
        intro he
        exact (dedupMinAux_notSeen xs seen r h) (he ▸ hx)
      rw [List.find?_cons_of_neg _ (by simp [hne]), ih seen r h]
    · rw [if_neg hx] at h
      rcases List.mem_cons.1 h with rfl | h2
      · rw [List.find?_cons_of_pos _ (by simp)]
      · have hnotin := dedupMinAux_notSeen xs _ r h2
        have hne : minuteKey x ≠ minuteKey r := by
          intro he
          exact hnotin (by rw [← he]; exact List.mem_cons_self _ _)
        rw [List.find?_cons_of_neg _ (by simp [hne]), ih _ r h2]

theorem bucketEmit_length_le (b : List Reading) : (bucketEmit b).length ≤ 2 := by
  cases b with
  | nil => simp [bucketEmit]
  | cons b0 rest =>
    simp only [bucketEmit]
    split_ifs <;> simp

theorem flatten_emit_length (bs : List (List Reading)) :
    (List.flatten (List.map bucketEmit bs)).length ≤ 2 * bs.length := by
  induction bs with
  | nil => simp
  | cons b bs ih =>
    simp only [List.map_cons, List.flatten_cons, List.length_append, List.length_cons]
    have := bucketEmit_length_le b
    omega

theorem chunkFuel_length_le (k : Nat) (hk : 0 < k) : ∀ (m fuel : Nat) (l : List Reading),
    l.length ≤ fuel → l.length ≤ k * m → (chunkFuel k fuel l).length ≤ m := by
  intro m
  induction m with
  | zero =>
    intro fuel l hf hm
    have h0 : l = [] := by
      cases l with
      | nil => rfl
      | cons x xs => simp at hm
    subst h0
    cases fuel <;> simp [chunkFuel]
  | succ m ih =>
    intro fuel l hf hm
    match fuel, l with
    | 0, l =>
      simp [chunkFuel]
    | fuel + 1, [] =>
      simp [chunkFuel]
    | fuel + 1, x :: xs =>
      simp only [chunkFuel, List.length_cons]
      have hdrop1 : ((x :: xs).drop k).length ≤ fuel := by
        rw [List.length_drop]
        simp only [List.length_cons]
        simp only [List.length_cons] at hf
        omega
      have hdrop2 : ((x :: xs).drop k).length ≤ k * m := by
        rw [List.length_drop]
        rw [Nat.mul_succ] at hm
        simp only [List.length_cons] at hm ⊢
        generalize k * m = K at hm ⊢
        omega
      have := ih fuel ((x :: xs).drop k) hdrop1 hdrop2
      omega

theorem ceil_mul_bound (n m : Nat) (hm : 0 < m) : n ≤ ((n + m - 1) / m) * m := by
  have h1 := Nat.div_add_mod (n + m - 1) m
  have h2 : (n + m - 1) % m < m := Nat.mod_lt _ hm
  rw [Nat.mul_comm]
  generalize hq : (n + m - 1) / m = q at h1
  generalize hr : (n + m - 1) % m = r at h1 h2
  generalize m * q = K at h1 ⊢
  omega

theorem foldl_mmStep_spec (rs : List Reading) : ∀ (mn mx : Reading),
    ((rs.foldl mmStep (mn, mx)).1 = mn ∨ (rs.foldl mmStep (mn, mx)).1 ∈ rs) ∧
    ((rs.foldl mmStep (mn, mx)).2 = mx ∨ (rs.foldl mmStep (mn, mx)).2 ∈ rs) ∧
    (rs.foldl mmStep (mn, mx)).1.value ≤ mn.value ∧
    mx.value ≤ (rs.foldl mmStep (mn, mx)).2.value ∧
    (∀ r ∈ rs, (rs.foldl mmStep (mn, mx)).1.value ≤ r.value ∧
      r.value ≤ (rs.foldl mmStep (mn, mx)).2.value) := by
  induction rs with
  | nil =>
    intro mn mx
    simp
  | cons p ps ih =>
    intro mn mx
    rw [List.foldl_cons]
    have hstep : mmStep (mn, mx) p
        = (if p.value < mn.value then p else mn, if mx.value < p.value then p else mx) := rfl
    rw [hstep]
    rcases ih (if p.value < mn.value then p else mn) (if mx.value < p.value then p else mx) with
      ⟨hm1, hm2, hv1, hv2, hall⟩
    have hmnv : (if p.value < mn.value then p else mn).value ≤ mn.value := by
      split_ifs with h
      · omega
      · omega
    have hmnp : (if p.value < mn.value then p else mn).value ≤ p.value := by
      split_ifs with h
      · omega
      · omega
    have hmxv : mx.value ≤ (if mx.value < p.value then p else mx).value := by
      split_ifs with h
      · omega
      · omega
    have hmxp : p.value ≤ (if mx.value < p.value then p else mx).value := by
      split_ifs with h
      · omega
      · omega
    refine ⟨?_, ?_, ?_, ?_, ?_⟩
    · rcases hm1 with h | h
      · rw [h]
        split_ifs with hc
        · right
          exact List.mem_cons_self _ _
        · left
          rfl
      · right
        exact List.mem_cons_of_mem _ h
    · rcases hm2 with h | h
      · rw [h]
        split_ifs with hc
        · right
          exact List.mem_cons_self _ _
        · left
          rfl
      · right
        exact List.mem_cons_of_mem _ h
    · exact le_trans hv1 hmnv
    · exact le_trans hmxv hv2
    · intro r hr
      rcases List.mem_cons.1 hr with rfl | hr2
      · exact ⟨le_trans hv1 hmnp, le_trans hmxp hv2⟩
      · exact hall r hr2

theorem getHistory_eq_1h (now : Nat) (series : List Reading) :
    getHistory now series "1h" = sortByTime (dedupByMinute
      (series.filter (fun r => decide (cutoffFor now "1h" ≤ (r.time : Int))))) := by
  unfold getHistory
  by_cases h : series.isEmpty
  · rw [if_pos h]
    have h0 : series = [] := List.isEmpty_iff.1 h
    subst h0
    rfl
  · rw [if_neg h, if_pos rfl]
    have hskip : skipFor "1h" = 1 := by decide
    rw [hskip, everyNth_one]

theorem getHistory_sublist (now : Nat) (series : List Reading) (period : String)
    (h : period ≠ "1h") :
    (getHistory now series period).Sublist
      (series.filter (fun r => decide (cutoffFor now period ≤ (r.time : Int)))) := by
  unfold getHistory
  by_cases h0 : series.isEmpty
  · rw [if_pos h0]
    exact List.nil_sublist _
  · rw [if_neg h0, if_neg h]
    exact everyNth_sublist _ _

theorem getHistory_mem_cutoff (now : Nat) (series : List Reading) (period : String)
    (r : Reading) (hr : r ∈ getHistory now series period) :
    cutoffFor now period ≤ (r.time : Int) := by
  by_cases h1 : period = "1h"
  · subst h1
    rw [getHistory_eq_1h, mem_sortByTime] at hr
    have h2 := (dedupByMinute_sublist _).subset hr
    exact of_decide_eq_true (List.mem_filter.1 h2).2
  · have h2 := (getHistory_sublist now series period h1).subset hr
    exact of_decide_eq_true (List.mem_filter.1 h2).2

/-- Claim C1, counterexample: on 101 ascending readings alternating
between 0 and 10, the `1h` downsampling (budget 100) returns 101 points,
so the output is not bounded by the period's point budget as the claim
states. -/
theorem C1_budget_counterexample :
    exAlternating.Pairwise (fun a b => a.time < b.time) ∧
    maxPointsFor "1h" < exAlternating.length ∧
    maxPointsFor "1h" < (downsample "1h" exAlternating).length := by
  decide

/-- Claim C1, amended: for every ascending-time reading sequence whose
length exceeds the period's point budget, the downsampling output
contains at most twice that budget's number of points (each of the at
most `budget` buckets emits at most two extrema). -/
theorem C1_budget_amended (period : String) (readings : List Reading)
    (h : maxPointsFor period < readings.length) :
    (downsample period readings).length ≤ 2 * maxPointsFor period := by
  have hm : 0 < maxPointsFor period := maxPointsFor_pos period
  unfold downsample
  rw [if_neg (by omega)]
  rw [sortByTime_length]
  have hk : 0 < (readings.length + maxPointsFor period - 1) / maxPointsFor period :=
    Nat.div_pos (by omega) hm
  have hceil := ceil_mul_bound readings.length (maxPointsFor period) hm
  have hchunks : (chunk ((readings.length + maxPointsFor period - 1) / maxPointsFor period)
      readings).length ≤ maxPointsFor period := by
    unfold chunk
    exact chunkFuel_length_le _ hk _ _ _ (le_refl _) hceil
  have hflat := flatten_emit_length (chunk
    ((readings.length + maxPointsFor period - 1) / maxPointsFor period) readings)
  omega

/-- Claim C1, witness for the amended statement at a concrete over-budget
input. -/
theorem C1_budget_amended_witness :
    (downsample "1h" exAlternating).length ≤ 2 * maxPointsFor "1h" :=
  C1_budget_amended "1h" exAlternating (by decide)

/-- Claim C2: after any sequence of N appends (N > 50000) into an empty
series, the stored series is exactly the most recent 50000 appended
readings in their original relative order (the oldest N - 50000 entries
are evicted), so its length is exactly 50000. -/
theorem C2_retention (l : List Reading) (h : 50000 < l.length) :
    List.foldl storeReading [] l = l.drop (l.length - 50000) ∧
    (List.foldl storeReading [] l).length = 50000 := by
  refine ⟨storeReading_foldl l, ?_⟩
  rw [storeReading_foldl l, List.length_drop]
  omega

/-- Claim C2, witness at a concrete 50001-append run. -/
theorem C2_retention_witness :
    List.foldl storeReading [] (List.replicate 50001 ({ time := 0, value := 0 } : Reading))
      = (List.replicate 50001 ({ time := 0, value := 0 } : Reading)).drop
          ((List.replicate 50001 ({ time := 0, value := 0 } : Reading)).length - 50000) ∧
    (List.foldl storeReading []
      (List.replicate 50001 ({ time := 0, value := 0 } : Reading))).length = 50000 :=
  C2_retention _ (by rw [List.length_replicate]; omega)

/-- Claim C3: every nonempty bucket contains a minimum-value reading
`minP` and a maximum-value reading `maxP` (the first such occurrences)
with the emission producing exactly two points when their values differ
by at least 2 and exactly one point otherwise, and when the two have
distinct timestamps the earlier-timestamped one is always emitted first
with the other one following exactly when the difference is at least
2. -/
theorem C3_bucket_extrema (b : List Reading) (hb : b ≠ []) :
    ∃ minP maxP, minP ∈ b ∧ maxP ∈ b ∧
      (∀ r ∈ b, minP.value ≤ r.value) ∧ (∀ r ∈ b, r.value ≤ maxP.value) ∧
      (bucketEmit b).length = (if 2 ≤ maxP.value - minP.value then 2 else 1) ∧
      (minP.time < maxP.time →
        bucketEmit b = minP :: (if 2 ≤ maxP.value - minP.value then [maxP] else [])) ∧
      (maxP.time < minP.time →
        bucketEmit b = maxP :: (if 2 ≤ maxP.value - minP.value then [minP] else [])) := by
  match b, hb with
  | b0 :: rest, _ =>
    rcases foldl_mmStep_spec (b0 :: rest) b0 b0 with ⟨hm1, hm2, _, _, hall⟩
    refine ⟨((b0 :: rest).foldl mmStep (b0, b0)).1, ((b0 :: rest).foldl mmStep (b0, b0)).2,
      ?_, ?_, ?_, ?_, ?_, ?_, ?_⟩
    · rcases hm1 with h | h
      · rw [h]
        exact List.mem_cons_self _ _
      · exact h
    · rcases hm2 with h | h
      · rw [h]
        exact List.mem_cons_self _ _
      · exact h
    · exact fun r hr => (hall r hr).1
    · exact fun r hr => (hall r hr).2
    · simp only [bucketEmit]
      split_ifs <;> simp
    · intro ht
      simp only [bucketEmit]
      rw [if_pos ht]
    · intro ht
      simp only [bucketEmit]
      rw [if_neg (by omega)]

/-- Claim C3, witness at the near-flat bucket of values 50 and 51. -/
theorem C3_bucket_extrema_witness :
    ∃ minP maxP, minP ∈ exFlatBucket ∧ maxP ∈ exFlatBucket ∧
      (∀ r ∈ exFlatBucket, minP.value ≤ r.value) ∧
      (∀ r ∈ exFlatBucket, r.value ≤ maxP.value) ∧
      (bucketEmit exFlatBucket).length = (if 2 ≤ maxP.value - minP.value then 2 else 1) ∧
      (minP.time < maxP.time →
        bucketEmit exFlatBucket
          = minP :: (if 2 ≤ maxP.value - minP.value then [maxP] else [])) ∧
      (maxP.time < minP.time →
        bucketEmit exFlatBucket
          = maxP :: (if 2 ≤ maxP.value - minP.value then [minP] else [])) :=
  C3_bucket_extrema exFlatBucket (by decide)

/-- Claim C4, counterexample: for period `24h` the local query drops
readings (it keeps only every 5th filtered entry) and does not re-sort,
so a retained reading at or after the cutoff is missing from the result
and the result is not in ascending time order. -/
theorem C4_query_counterexample :
    ({ time := 5, value := 2 } : Reading) ∈ exUnordered ∧
    cutoffFor 1000000 "24h" ≤ ((5 : Nat) : Int) ∧
    ({ time := 5, value := 2 } : Reading) ∉ getHistory 1000000 exUnordered "24h" ∧
    ¬ (getHistory 1000000 exUnordered "24h").Pairwise (fun a b => a.time ≤ b.time) := by
  decide

/-- Claim C4, amended: the local query returns only readings with
timestamp at or after the period's cutoff; for period `1h` the result is
exactly the cutoff-filtered series deduplicated to at most one reading
per calendar minute (first-seen wins, each kept reading being the one
`find?` locates first for its minute) and sorted ascending by time; for
every other period it is exactly the every-skipFactor-th-element
subsequence of the cutoff-filtered series in stored insertion order,
with the skip factors 5, 60, 360, 1440 for `24h`, `7d`, `30d`, `1y` and
no re-sorting. -/
theorem C4_query_amended (now : Nat) (series : List Reading) (period : String) :
    (∀ r ∈ getHistory now series period, cutoffFor now period ≤ (r.time : Int)) ∧
    (skipFor "24h" = 5 ∧ skipFor "7d" = 60 ∧ skipFor "30d" = 360 ∧ skipFor "1y" = 1440) ∧
    (period = "1h" →
      getHistory now series period
        = sortByTime (dedupByMinute
            (series.filter (fun r => decide (cutoffFor now period ≤ (r.time : Int))))) ∧
      (getHistory now series period).Pairwise (fun a b => a.time ≤ b.time) ∧
      (getHistory now series period).Pairwise (fun a b => minuteKey a ≠ minuteKey b) ∧
      (∀ r ∈ getHistory now series period,
        (series.filter (fun x => decide (cutoffFor now period ≤ (x.time : Int)))).find?
          (fun x => minuteKey x == minuteKey r) = some r)) ∧
    (period ≠ "1h" →
      getHistory now series period
        = everyNth (skipFor period)
            (series.filter (fun r => decide (cutoffFor now period ≤ (r.time : Int))))) := by
  refine ⟨fun r hr => getHistory_mem_cutoff now series period r hr,
    ⟨by decide, by decide, by decide, by decide⟩, fun h1 => ?_, fun h1 => ?_⟩
  · subst h1
    refine ⟨getHistory_eq_1h now series, ?_, ?_, ?_⟩
    · rw [getHistory_eq_1h]
      exact sortByTime_sorted _
    · rw [getHistory_eq_1h]
      exact ((sortByTime_perm _).pairwise_iff (fun h => h.symm)).2
        (dedupMinAux_keys_pairwise _ [])
    · intro r hr
      rw [getHistory_eq_1h, mem_sortByTime] at hr
      exact dedupMinAux_find _ [] r hr
  · unfold getHistory
    by_cases h0 : series.isEmpty
    · rw [if_pos h0]
      have h2 : series = [] := List.isEmpty_iff.1 h0
      subst h2
      rfl
    · rw [if_neg h0, if_neg h1]

/-- Claim C4, witness for the amended statement at a concrete unordered
series and period `24h`. -/
theorem C4_query_amended_witness :
    (∀ r ∈ getHistory 1000000 exUnordered "24h",
      cutoffFor 1000000 "24h" ≤ (r.time : Int)) ∧
    (skipFor "24h" = 5 ∧ skipFor "7d" = 60 ∧ skipFor "30d" = 360 ∧ skipFor "1y" = 1440) ∧
    ("24h" = "1h" →
      getHistory 1000000 exUnordered "24h"
        = sortByTime (dedupByMinute
            (exUnordered.filter (fun r => decide (cutoffFor 1000000 "24h" ≤ (r.time : Int))))) ∧
      (getHistory 1000000 exUnordered "24h").Pairwise (fun a b => a.time ≤ b.time) ∧
      (getHistory 1000000 exUnordered "24h").Pairwise
        (fun a b => minuteKey a ≠ minuteKey b) ∧
      (∀ r ∈ getHistory 1000000 exUnordered "24h",
        (exUnordered.filter (fun x => decide (cutoffFor 1000000 "24h" ≤ (x.time : Int)))).find?
          (fun x => minuteKey x == minuteKey r) = some r)) ∧
    ("24h" ≠ "1h" →
      getHistory 1000000 exUnordered "24h"
        = everyNth (skipFor "24h")
            (exUnordered.filter (fun r => decide (cutoffFor 1000000 "24h" ≤ (r.time : Int))))) :=
  C4_query_amended 1000000 exUnordered "24h"

/-- Claim C5: for every history request with a valid configured sensor
and a period other than `1h`, an upstream error result, a response
lacking the expected channel payload, or a caught exception all make the
endpoint answer with the Reading Store's locally retained data for that
sensor and period, tagged `source: local` (a JSON result, never an error
response). -/
theorem C5_fallback_local (accounts : List String) (now : Nat) (stored : List Reading)
    (sensorId period : String) (u : Upstream)
    (hparse : ∃ pr, parseSensorId sensorId = some pr ∧ pr.1 ∈ accounts)
    (hp : period ≠ "1h")
    (hu : (∃ m, u = Upstream.err m) ∨ u = Upstream.noChannel ∨ (∃ m, u = Upstream.exn m)) :
    (historyEndpoint accounts now stored sensorId period u).source = some "local" ∧
    (historyEndpoint accounts now stored sensorId period u).data
      = getHistory now stored period := by
  obtain ⟨pr, hpr, hmem⟩ := hparse
  rcases hu with ⟨m, rfl⟩ | rfl | ⟨m, rfl⟩ <;>
    · unfold historyEndpoint
      rw [hpr]
      simp [if_pos hmem, if_neg hp]

/-- Claim C5, witness: a concrete upstream error on period `24h` for a
configured sensor. -/
theorem C5_fallback_local_witness :
    (historyEndpoint ["account1"] 0 [] "account1_soil_ch1" "24h"
      (Upstream.err "down")).source = some "local" ∧
    (historyEndpoint ["account1"] 0 [] "account1_soil_ch1" "24h"
      (Upstream.err "down")).data = getHistory 0 [] "24h" :=
  C5_fallback_local ["account1"] 0 [] "account1_soil_ch1" "24h" (Upstream.err "down")
    ⟨("account1", "1"), by decide, by decide⟩ (by decide)
    (Or.inl ⟨"down", rfl⟩)

/-- Claim C6, counterexample: a locally stored reading two hours old
(outside the trailing 60 minutes, but inside the 24-hour window the code
actually uses) is served by the `1h` history path, so the `1h` result is
not limited to the trailing 60 minutes as the claim states. -/
theorem C6_hourly_counterexample :
    (historyEndpoint ["account1"] 360000000 [{ time := 352800000, value := 50 }]
        "account1_soil_ch1" "1h" (Upstream.err "down")).data
      = [{ time := 352800000, value := 50 }] ∧
    (352800000 : Int) < (360000000 : Int) - 3600000 := by
  decide

/-- Claim C6, amended: for every valid configured sensor, a `1h` history
request is answered from local data only — the response is independent
of the upstream outcome and tagged `source: local` — and the served
readings are the locally retained ones within the trailing 24 hours
(the frontend slices the requested hour out of this buffer),
deduplicated to at most one reading per calendar minute with the
first-seen reading winning, sorted ascending by time. -/
theorem C6_hourly_amended (accounts : List String) (now : Nat) (stored : List Reading)
    (sensorId : String) (u v : Upstream)
    (hparse : ∃ pr, parseSensorId sensorId = some pr ∧ pr.1 ∈ accounts) :
    historyEndpoint accounts now stored sensorId "1h" u
      = historyEndpoint accounts now stored sensorId "1h" v ∧
    (historyEndpoint accounts now stored sensorId "1h" u).source = some "local" ∧
    (historyEndpoint accounts now stored sensorId "1h" u).data = getHistory now stored "1h" ∧
    (∀ r ∈ getHistory now stored "1h", (now : Int) - 86400000 ≤ (r.time : Int)) ∧
    (getHistory now stored "1h").Pairwise (fun a b => a.time ≤ b.time) ∧
    (getHistory now stored "1h").Pairwise (fun a b => minuteKey a ≠ minuteKey b) ∧
    (∀ r ∈ getHistory now stored "1h",
      (stored.filter (fun x => decide (cutoffFor now "1h" ≤ (x.time : Int)))).find?
        (fun x => minuteKey x == minuteKey r) = some r) := by
  obtain ⟨pr, hpr, hmem⟩ := hparse
  have hend : ∀ w : Upstream, historyEndpoint accounts now stored sensorId "1h" w
      = { data := getHistory now stored "1h", source := some "local", error := none } := by
    intro w
    unfold historyEndpoint
    rw [hpr]
    simp [hmem]
  have hcut : cutoffFor now "1h" = (now : Int) - 86400000 := rfl
  refine ⟨by rw [hend u, hend v], by rw [hend u], by rw [hend u], ?_, ?_, ?_, ?_⟩
  · intro r hr
    rw [← hcut]
    exact getHistory_mem_cutoff now stored "1h" r hr
  · rw [getHistory_eq_1h]
    exact sortByTime_sorted _
  · rw [getHistory_eq_1h]
    exact ((sortByTime_perm _).pairwise_iff (fun h => h.symm)).2
      (dedupMinAux_keys_pairwise _ [])
  · intro r hr
    rw [getHistory_eq_1h, mem_sortByTime] at hr
    exact dedupMinAux_find _ [] r hr

/-- Claim C6, witness for the amended statement at a concrete configured
sensor with a two-entry local store and two different upstream
outcomes. -/
theorem C6_hourly_amended_witness :
    historyEndpoint ["account1"] 360000000
        [{ time := 359999000, value := 44 }, { time := 352800000, value := 50 }]
        "account1_soil_ch1" "1h" (Upstream.err "down")
      = historyEndpoint ["account1"] 360000000
        [{ time := 359999000, value := 44 }, { time := 352800000, value := 50 }]
        "account1_soil_ch1" "1h" (Upstream.ok []) ∧
    (historyEndpoint ["account1"] 360000000
        [{ time := 359999000, value := 44 }, { time := 352800000, value := 50 }]
        "account1_soil_ch1" "1h" (Upstream.err "down")).source = some "local" ∧
    (historyEndpoint ["account1"] 360000000
        [{ time := 359999000, value := 44 }, { time := 352800000, value := 50 }]
        "account1_soil_ch1" "1h" (Upstream.err "down")).data
      = getHistory 360000000
        [{ time := 359999000, value := 44 }, { time := 352800000, value := 50 }] "1h" ∧
    (∀ r ∈ getHistory 360000000
        [{ time := 359999000, value := 44 }, { time := 352800000, value := 50 }] "1h",
      ((360000000 : Nat) : Int) - 86400000 ≤ (r.time : Int)) ∧
    (getHistory 360000000
        [{ time := 359999000, value := 44 }, { time := 352800000, value := 50 }]
        "1h").Pairwise (fun a b => a.time ≤ b.time) ∧
    (getHistory 360000000
        [{ time := 359999000, value := 44 }, { time := 352800000, value := 50 }]
        "1h").Pairwise (fun a b => minuteKey a ≠ minuteKey b) ∧
    (∀ r ∈ getHistory 360000000
        [{ time := 359999000, value := 44 }, { time := 352800000, value := 50 }] "1h",
      ([{ time := 359999000, value := 44 }, { time := 352800000, value := 50 }].filter
          (fun x => decide (cutoffFor 360000000 "1h" ≤ (x.time : Int)))).find?
        (fun x => minuteKey x == minuteKey r) = some r) :=
  C6_hourly_amended ["account1"] 360000000
    [{ time := 359999000, value := 44 }, { time := 352800000, value := 50 }]
    "account1_soil_ch1" (Upstream.err "down") (Upstream.ok [])
    ⟨("account1", "1"), by decide, by decide⟩

/-- Claim C7: while a cached snapshot is younger than 5 seconds, every
`fetchCurrent` call returns the cached snapshot unchanged, leaves the
cache state untouched, and makes no upstream network call; hence two
such calls yield identical aggregated results. -/
theorem C7_cache_freshness {α : Type} (c f1 f2 : α) (tstore t1 t2 : Nat)
    (h1 : t1 - tstore < 5000) (h2 : t2 - tstore < 5000) :
    fetchCurrentStep { snap := some c, time := tstore } t1 f1
        = (c, { snap := some c, time := tstore }, false) ∧
    fetchCurrentStep { snap := some c, time := tstore } t2 f2
        = (c, { snap := some c, time := tstore }, false) ∧
    (fetchCurrentStep { snap := some c, time := tstore } t1 f1).1
        = (fetchCurrentStep { snap := some c, time := tstore } t2 f2).1 := by
  have e1 : fetchCurrentStep { snap := some c, time := tstore } t1 f1
      = (c, { snap := some c, time := tstore }, false) := by
    unfold fetchCurrentStep
    simp [h1]
  have e2 : fetchCurrentStep { snap := some c, time := tstore } t2 f2
      = (c, { snap := some c, time := tstore }, false) := by
    unfold fetchCurrentStep
    simp [h2]
  exact ⟨e1, e2, by rw [e1, e2]⟩

/-- Claim C7, witness at concrete instants 1000 ms and 4000 ms after the
snapshot was stored. -/
theorem C7_cache_freshness_witness :
    fetchCurrentStep { snap := some (42 : Nat), time := 0 } 1000 7
        = (42, { snap := some (42 : Nat), time := 0 }, false) ∧
    fetchCurrentStep { snap := some (42 : Nat), time := 0 } 4000 9
        = (42, { snap := some (42 : Nat), time := 0 }, false) ∧
    (fetchCurrentStep { snap := some (42 : Nat), time := 0 } 1000 7).1
        = (fetchCurrentStep { snap := some (42 : Nat), time := 0 } 4000 9).1 :=
  C7_cache_freshness 42 7 9 0 1000 4000 (by decide) (by decide)

/-- Claim C8, counterexample: the downsampled output can exceed the
budget (101 points from 102 inputs on period `1h`), and running the
engine on that output changes it (a second pass returns 100 points), so
downsampling is not idempotent on its own output in general. -/
theorem C8_idempotence_counterexample :
    exFlatHead.Pairwise (fun a b => a.time < b.time) ∧
    (downsample "1h" exFlatHead).length = 101 ∧
    (downsample "1h" (downsample "1h" exFlatHead)).length = 100 ∧
    downsample "1h" (downsample "1h" exFlatHead) ≠ downsample "1h" exFlatHead := by
  decide

/-- Claim C8, amended: every input at or under the period budget is
returned unchanged element-for-element; consequently the engine is a
no-op on any of its own outputs that is at or under the budget (an
output may exceed the budget, and a second pass can then change it). -/
theorem C8_idempotence_amended (period : String) (readings : List Reading)
    (h : readings.length ≤ maxPointsFor period) :
    downsample period readings = readings ∧
    ((downsample period readings).length ≤ maxPointsFor period →
      downsample period (downsample period readings) = downsample period readings) := by
  have hid : downsample period readings = readings := by
    unfold downsample
    rw [if_pos h]
  exact ⟨hid, fun _ => by rw [hid]; exact hid⟩

/-- Claim C8, witness at a concrete two-reading under-budget input. -/
theorem C8_idempotence_amended_witness :
    downsample "24h" exUnderBudget = exUnderBudget ∧
    ((downsample "24h" exUnderBudget).length ≤ maxPointsFor "24h" →
      downsample "24h" (downsample "24h" exUnderBudget) = downsample "24h" exUnderBudget) :=
  C8_idempotence_amended "24h" exUnderBudget (by decide)

/-- Claim C9: the settings merge keeps every field that is absent from
the update body at its prior persisted value. -/
theorem C9_settings_merge (current : Settings) (patch : SettingsPatch) :
    (patch.names = none → (mergeSettings current patch).names = current.names) ∧
    (patch.colors = none → (mergeSettings current patch).colors = current.colors) ∧
    (patch.order = none → (mergeSettings current patch).order = current.order) ∧
    (patch.hidden = none → (mergeSettings current patch).hidden = current.hidden) ∧
    (patch.thresholds = none →
      (mergeSettings current patch).thresholds = current.thresholds) := by
  refine ⟨fun h => ?_, fun h => ?_, fun h => ?_, fun h => ?_, fun h => ?_⟩ <;>
    simp [mergeSettings, h]

/-- Claim C9, witness: updating only the hidden list leaves names,
colors, order, and thresholds unchanged (and applies the new hidden
list). -/
theorem C9_settings_merge_witness :
    (mergeSettings exSettings exHiddenPatch).names = exSettings.names ∧
    (mergeSettings exSettings exHiddenPatch).colors = exSettings.colors ∧
    (mergeSettings exSettings exHiddenPatch).order = exSettings.order ∧
    (mergeSettings exSettings exHiddenPatch).thresholds = exSettings.thresholds ∧
    (mergeSettings exSettings exHiddenPatch).hidden = ["account2_soil_ch2"] := by
  have h := C9_settings_merge exSettings exHiddenPatch
  exact ⟨h.1 rfl, h.2.1 rfl, h.2.2.1 rfl, h.2.2.2.2 rfl, rfl⟩

/-- Claim C10: a history request whose sensor id does not match
`account<digits>_soil_ch<digits>`, or whose account id is not among the
configured accounts, is answered with empty data and an error message,
and the response does not depend on the current instant, the local
store, or the upstream outcome (no upstream call, no store read, no
state change). -/
theorem C10_invalid_sensor (accounts : List String) (now now2 : Nat)
    (stored stored2 : List Reading) (sensorId period : String) (u u2 : Upstream)
    (h : parseSensorId sensorId = none ∨
      ∀ pr, parseSensorId sensorId = some pr → pr.1 ∉ accounts) :
    ((historyEndpoint accounts now stored sensorId period u).data = [] ∧
      ∃ msg, (historyEndpoint accounts now stored sensorId period u).error = some msg) ∧
    historyEndpoint accounts now stored sensorId period u
      = historyEndpoint accounts now2 stored2 sensorId period u2 := by
  rcases h with h | h
  · have hnone : ∀ (n3 : Nat) (s3 : List Reading) (u3 : Upstream),
        historyEndpoint accounts n3 s3 sensorId period u3
          = { data := [], source := none, error := some "Invalid sensor ID format" } := by
      intro n3 s3 u3
      unfold historyEndpoint
      rw [h]
    rw [hnone now stored u, hnone now2 stored2 u2]
    exact ⟨⟨rfl, "Invalid sensor ID format", rfl⟩, rfl⟩
  · cases hpr : parseSensorId sensorId with
    | none =>
      have hnone : ∀ (n3 : Nat) (s3 : List Reading) (u3 : Upstream),
          historyEndpoint accounts n3 s3 sensorId period u3
            = { data := [], source := none, error := some "Invalid sensor ID format" } := by
        intro n3 s3 u3
        unfold historyEndpoint
        rw [hpr]
      rw [hnone now stored u, hnone now2 stored2 u2]
      exact ⟨⟨rfl, "Invalid sensor ID format", rfl⟩, rfl⟩
    | some pr =>
      have hnot := h pr hpr
      have hsome : ∀ (n3 : Nat) (s3 : List Reading) (u3 : Upstream),
          historyEndpoint accounts n3 s3 sensorId period u3
            = { data := [], source := none, error := some "Account not found" } := by
        intro n3 s3 u3
        unfold historyEndpoint
        rw [hpr]
        simp [hnot]
      rw [hsome now stored u, hsome now2 stored2 u2]
      exact ⟨⟨rfl, "Account not found", rfl⟩, rfl⟩

/-- Claim C10, witness at a concrete non-matching sensor id, with two
different instants, stores, and upstream outcomes. -/
theorem C10_invalid_sensor_witness :
    ((historyEndpoint ["account1"] 0 [] "garden_soil_ch1" "24h" Upstream.noChannel).data = []
      ∧ ∃ msg, (historyEndpoint ["account1"] 0 [] "garden_soil_ch1" "24h"
          Upstream.noChannel).error = some msg) ∧
    historyEndpoint ["account1"] 0 [] "garden_soil_ch1" "24h" Upstream.noChannel
      = historyEndpoint ["account1"] 5 [{ time := 1, value := 1 }] "garden_soil_ch1" "24h"
          (Upstream.err "x") :=
  C10_invalid_sensor ["account1"] 0 5 [] [{ time := 1, value := 1 }] "garden_soil_ch1" "24h"
    Upstream.noChannel (Upstream.err "x") (Or.inl (by decide))
